import Mathlib

/-!
Shallow embedding of the `lux` ray tracer (src/src/main.rs) and proofs about
the frozen claims.  Machine floats (`f64`) are modelled by `ℚ`; the `sqrt`
intrinsic is modelled by `ratSqrt`, which is exact on perfect squares (every
concrete input used below has perfect-square radicands).  The Rust
`&mut GlobalSettings` parameter of `trace` and `render` is modelled by
explicit state passing, so that "the callee does not modify the state" is a
provable statement rather than a modelling artifact.
-/

attribute [local semireducible] Rat.add Rat.mul Rat.sub Rat.inv

namespace Lux

/-- Newton iteration for the integer square root, written with structural
fuel so that concrete values reduce inside the kernel. -/
def natSqrtIter (n : Nat) : Nat → Nat → Nat
  | 0, guess => guess
  | fuel + 1, guess =>
    let next := (guess + n / guess) / 2
    if next < guess then natSqrtIter n fuel next else guess

/-- Integer square root (agrees with `Nat.sqrt` for every input reachable
with fuel 128, i.e. all inputs below `2^128`). -/
def natSqrt (n : Nat) : Nat := if n ≤ 1 then n else natSqrtIter n 128 (n / 2)

/-- Model of `f64::sqrt`: exact on rationals whose numerator and denominator
are perfect squares (all radicands appearing in the concrete scenes below),
an unspecified stand-in value elsewhere. -/
def ratSqrt (q : ℚ) : ℚ :=
  (natSqrt q.num.toNat : ℚ) / (natSqrt q.den : ℚ)

/-- `struct Vector3D { x: f64, y: f64, z: f64 }` -/
@[ext] structure Vector3D where
  x : ℚ
  y : ℚ
  z : ℚ
deriving DecidableEq

/-- `Vector3D::v3d_add` (pure version of the in-place method). -/
def v3d_add (a b : Vector3D) : Vector3D := ⟨a.x + b.x, a.y + b.y, a.z + b.z⟩

/-- `Vector3D::v3d_sub`. -/
def v3d_sub (a b : Vector3D) : Vector3D := ⟨a.x - b.x, a.y - b.y, a.z - b.z⟩

/-- `Vector3D::v3d_mul_scalar`. -/
def v3d_mul_scalar (a : Vector3D) (s : ℚ) : Vector3D := ⟨a.x * s, a.y * s, a.z * s⟩

/-- `Vector3D::v3d_mul_v3d` (component-wise product). -/
def v3d_mul_v3d (a b : Vector3D) : Vector3D := ⟨a.x * b.x, a.y * b.y, a.z * b.z⟩

/-- `Vector3D::v3d_dot_mul`. -/
def v3d_dot_mul (a b : Vector3D) : ℚ := a.x * b.x + a.y * b.y + a.z * b.z

/-- `Vector3D::v3d_length` (`sqrt(x*x + y*y + z*z)`). -/
def v3d_length (a : Vector3D) : ℚ := ratSqrt (a.x * a.x + a.y * a.y + a.z * a.z)

/-- `Vector3D::v3d_norm`: scale by the reciprocal length. -/
def v3d_norm (a : Vector3D) : Vector3D :=
  let l : ℚ := 1 / v3d_length a
  ⟨a.x * l, a.y * l, a.z * l⟩

/-- `struct Material`. -/
structure Material where
  specular : ℚ
  diffusive : ℚ
  reflective : ℚ
  color : Vector3D
deriving DecidableEq

/-- `struct PrimSphere`. -/
structure PrimSphere where
  position : Vector3D
  radius : ℚ
  m : Material
deriving DecidableEq

/-- `struct Ray`. -/
structure Ray where
  direction : Vector3D
  origin : Vector3D
deriving DecidableEq

/-- `struct Light`. -/
structure Light where
  position : Vector3D
  color : Vector3D
deriving DecidableEq

/-- One RGBA8 pixel (`image::Rgba<u8>`); channels are already-clamped values. -/
structure Rgba where
  r : Nat
  g : Nat
  b : Nat
  a : Nat
deriving DecidableEq

/-- The framebuffer (`image::RgbaImage`): fixed dimensions plus pixel contents. -/
@[ext] structure Image where
  width : Nat
  height : Nat
  data : Nat → Nat → Rgba

/-- `RgbaImage::put_pixel`. -/
def put_pixel (img : Image) (x y : Nat) (c : Rgba) : Image :=
  { img with data := fun x' y' => if x' = x ∧ y' = y then c else img.data x' y' }

/-- `struct GlobalSettings`. -/
@[ext] structure GlobalSettings where
  img : Image
  primitive_count : Nat
  primitive_list : List PrimSphere
  light_count : Nat
  light_list : List Light

/-- `PrimSphere::normal`: subtract the center, scale by `1/radius`, normalize. -/
def PrimSphere.normal (s : PrimSphere) (pos : Vector3D) : Vector3D :=
  v3d_norm (v3d_mul_scalar (v3d_sub pos s.position) (1 / s.radius))

/-- `PrimSphere::intersect`.  The Rust function writes the hit distance through
`&mut f64` only when it reports a hit; we model it as taking the current value
of `dist` and returning the pair `(retval, dist after the call)`. -/
def PrimSphere.intersect (s : PrimSphere) (ray : Ray) (dist : ℚ) : Int × ℚ :=
  let v_precalc := v3d_sub ray.origin s.position
  let det_precalc : ℚ := s.radius * s.radius - v3d_dot_mul v_precalc v_precalc
  let b : ℚ := - v3d_dot_mul v_precalc ray.direction
  let det : ℚ := b * b + det_precalc
  if det > 0 then
    let det' := ratSqrt det
    let i1 := b - det'
    let i2 := b + det'
    if i2 > 0 ∧ i1 < 0 then (-1, i2)
    else if i2 > 0 ∧ i1 ≥ 0 then (1, i1)
    else (0, dist)
  else (0, dist)

/-- `add_sphere` (capacity `MAXPRIMCOUNT = 64`). -/
def add_sphere (pos : Vector3D) (rad : ℚ) (m : Material) (g : GlobalSettings) :
    GlobalSettings :=
  if g.primitive_count < 64 then
    { g with
      primitive_list := g.primitive_list ++ [⟨⟨pos.x, pos.y, pos.z⟩, rad, m⟩]
      primitive_count := g.primitive_count + 1 }
  else g

/-- `add_light` (capacity `MAXLIGHTCOUNT = 10`). -/
def add_light (pos : Vector3D) (color : Vector3D) (g : GlobalSettings) :
    GlobalSettings :=
  if g.light_count < 10 then
    { g with
      light_list := g.light_list ++ [⟨⟨pos.x, pos.y, pos.z⟩, ⟨color.x, color.y, color.z⟩⟩]
      light_count := g.light_count + 1 }
  else g

/-- The initial value of `color` in `trace`, which is also the background
color returned on a miss. -/
def backgroundColor : Vector3D := ⟨2/100, 1/10, 17/100⟩

/-- The nearest-hit scan of `trace` (the `for i in 0..primitive_count` loop):
threads the running minimum distance (initially `1000000000.0`) and the
current nearest primitive; a primitive is recorded only when `intersect`
reports a hit (`res ≠ 0`) whose reported distance beats the running minimum. -/
def findNearest (ray : Ray) : List PrimSphere → ℚ → Option PrimSphere → ℚ × Option PrimSphere
  | [], dist, prim => (dist, prim)
  | p :: rest, dist, prim =>
    let res := PrimSphere.intersect p ray 0
    if res.1 = 0 then findNearest ray rest dist prim
    else if res.2 < dist then findNearest ray rest res.2 (some p)
    else findNearest ray rest dist prim

/-- The diffuse addition of one light-loop iteration (guarded by
`diffusive > 0.0` and `dot(L,N) > 0.0`; contributes the zero vector
otherwise). -/
def diffuseAdd (prim : PrimSphere) (n l : Vector3D) (light : Light) : Vector3D :=
  if prim.m.diffusive > 0 then
    let dot := v3d_dot_mul l n
    if dot > 0 then
      v3d_mul_scalar (v3d_mul_v3d light.color prim.m.color) (dot * prim.m.diffusive)
    else ⟨0, 0, 0⟩
  else ⟨0, 0, 0⟩

/-- The specular addition of one light-loop iteration: the code computes
`R = L - N * (dot(L,N) * 2)` and tests `dot(rayDirection, R) > 0`, then raises
that dot to the 8th power by three in-place squarings. -/
def specularAdd (ray : Ray) (prim : PrimSphere) (n l : Vector3D) (light : Light) :
    Vector3D :=
  if prim.m.specular > 0 then
    let r1 := v3d_mul_scalar n (v3d_dot_mul l n * 2)
    let r := v3d_sub l r1
    let dot := v3d_dot_mul ray.direction r
    if dot > 0 then
      let dot2 := dot * dot
      let dot4 := dot2 * dot2
      let dot8 := dot4 * dot4
      v3d_mul_scalar light.color (dot8 * prim.m.specular)
    else ⟨0, 0, 0⟩
  else ⟨0, 0, 0⟩

/-- The reflected ray built inside the reflection branch:
`R = D - N * (dot(D,N) * 2)`, origin offset `newpi = pi + R * 0.0001`. -/
def reflectRay (ray : Ray) (n pi : Vector3D) : Ray :=
  let r1 := v3d_mul_scalar n (v3d_dot_mul ray.direction n * 2)
  let r := v3d_sub ray.direction r1
  let newpi := v3d_add (v3d_mul_scalar r (1/10000)) pi
  { origin := newpi, direction := r }

/-- The `for i in 0..light_count` loop of `trace`, state-threading version.
`recur` performs the recursive `trace` call at depth `refl_depth + 1`.
Note the reflection branch is INSIDE this per-light loop, exactly as in the
source. -/
def lightLoopF (recur : Ray → GlobalSettings → Vector3D × GlobalSettings)
    (ray : Ray) (prim : PrimSphere) (pi : Vector3D) (refl_depth : Nat) :
    List Light → Vector3D → GlobalSettings → Vector3D × GlobalSettings
  | [], color, g => (color, g)
  | light :: rest, color, g =>
    let l := v3d_norm (v3d_sub light.position pi)
    let n := prim.normal pi
    let color1 := v3d_add color (diffuseAdd prim n l light)
    let color2 := v3d_add color1 (specularAdd ray prim n l light)
    if prim.m.reflective > 0 ∧ refl_depth < 4 then
      let rg := recur (reflectRay ray n pi) g
      let rcol := v3d_mul_v3d (v3d_mul_scalar rg.1 prim.m.reflective) prim.m.color
      lightLoopF recur ray prim pi refl_depth rest (v3d_add color2 rcol) rg.2
    else
      lightLoopF recur ray prim pi refl_depth rest color2 g

/-- Pure (color-only) version of the light loop, used to factor proofs. -/
def lightLoopP (recur : Ray → Vector3D)
    (ray : Ray) (prim : PrimSphere) (pi : Vector3D) (refl_depth : Nat) :
    List Light → Vector3D → Vector3D
  | [], color => color
  | light :: rest, color =>
    let l := v3d_norm (v3d_sub light.position pi)
    let n := prim.normal pi
    let color1 := v3d_add color (diffuseAdd prim n l light)
    let color2 := v3d_add color1 (specularAdd ray prim n l light)
    if prim.m.reflective > 0 ∧ refl_depth < 4 then
      let rcol := v3d_mul_v3d (v3d_mul_scalar (recur (reflectRay ray n pi)) prim.m.reflective) prim.m.color
      lightLoopP recur ray prim pi refl_depth rest (v3d_add color2 rcol)
    else
      lightLoopP recur ray prim pi refl_depth rest color2

/-- `trace`, state-threading version with explicit structural fuel.  `fuel` is
an upper bound on the remaining recursion; `trace` below instantiates it with
`4 - refl_depth + 1`, which `tracePF_fuel_irrel` proves sufficient (the
`fuel = 0` branch is unreachable from `trace`). -/
def traceF : Nat → GlobalSettings → Ray → Nat → Vector3D × GlobalSettings
  | 0, g, _, _ => (⟨0, 0, 0⟩, g)
  | fuel + 1, g, ray, refl_depth =>
    let scan := findNearest ray (g.primitive_list.take g.primitive_count)
      1000000000 none
    match scan.2 with
    | none => (backgroundColor, g)
    | some prim =>
      let pi := v3d_add (v3d_mul_scalar ray.direction scan.1) ray.origin
      lightLoopF (fun r g' => traceF fuel g' r (refl_depth + 1))
        ray prim pi refl_depth (g.light_list.take g.light_count) backgroundColor g

/-- Pure version of `traceF` over the scanned sphere and light lists. -/
def tracePF : Nat → List PrimSphere → List Light → Ray → Nat → Vector3D
  | 0, _, _, _, _ => ⟨0, 0, 0⟩
  | fuel + 1, prims, lights, ray, refl_depth =>
    let scan := findNearest ray prims 1000000000 none
    match scan.2 with
    | none => backgroundColor
    | some prim =>
      let pi := v3d_add (v3d_mul_scalar ray.direction scan.1) ray.origin
      lightLoopP (fun r => tracePF fuel prims lights r (refl_depth + 1))
        ray prim pi refl_depth lights backgroundColor

/-- `trace(ray, refl_depth, globals)`. -/
def trace (g : GlobalSettings) (ray : Ray) (refl_depth : Nat) :
    Vector3D × GlobalSettings :=
  traceF (4 - refl_depth + 1) g ray refl_depth

/-! ### Render scheduler -/

/-- Truncation toward zero of a rational, the behavior of Rust's `as i32`
cast on an in-range `f64` (`Int.tdiv` is T-division). -/
def ratTrunc (q : ℚ) : ℤ := Int.tdiv q.num (q.den : ℤ)

/-- The channel clamp of `render`: `>255` saturates to 255, `<0` to 0. -/
def clampChannel (v : ℤ) : Nat := if v > 255 then 255 else if v < 0 then 0 else v.toNat

/-- Conversion of a traced float color to an RGBA8 pixel with alpha 255. -/
def colorToRgba (c : Vector3D) : Rgba :=
  ⟨clampChannel (ratTrunc (c.x * 255)),
   clampChannel (ratTrunc (c.y * 255)),
   clampChannel (ratTrunc (c.z * 255)), 255⟩

/-- `camerapos` in `render`. -/
def camerapos : Vector3D := ⟨0, 0, -5⟩

/-- Viewport bound `wx1 = -2.0`. -/
def wx1 : ℚ := -2

/-- Viewport bound `wx2 = 2.0`. -/
def wx2 : ℚ := 2

/-- Viewport bound `wy1 = 1.5`. -/
def wy1 : ℚ := 3/2

/-- Viewport bound `wy2 = -1.5`. -/
def wy2 : ℚ := -3/2

/-- The camera ray for a viewport point `(sx, sy, 0)`: origin `camerapos`,
direction `normalize(target - camerapos)`. -/
def mkCameraRay (sx sy : ℚ) : Ray :=
  { origin := camerapos, direction := v3d_norm (v3d_sub ⟨sx, sy, 0⟩ camerapos) }

/-- The body of the inner pixel loop of `render`: trace the camera ray at
depth 0 and write the clamped color into the framebuffer at `(x, y)`. -/
def renderPixel (g : GlobalSettings) (x y : Nat) (sx sy : ℚ) : GlobalSettings :=
  let tg := trace g (mkCameraRay sx sy) 0
  { tg.2 with img := put_pixel tg.2.img x y (colorToRgba tg.1) }

/-- The `for x in 0..width` loop of `render`; `sx` is incremented by `dx`
after each pixel. -/
def renderCols (dx : ℚ) (y : Nat) (sy : ℚ) :
    List Nat → ℚ → GlobalSettings → GlobalSettings
  | [], _, g => g
  | x :: xs, sx, g => renderCols dx y sy xs (sx + dx) (renderPixel g x y sx sy)

/-- Structural-fuel helper for `stepIndices` (fuel `stop` always suffices,
see `stepIndices_eq`). -/
def stepIndicesAux : Nat → Nat → Nat → List Nat
  | 0, _, _ => []
  | fuel + 1, start, stop =>
    if start < stop then start :: stepIndicesAux fuel (start + 4) stop else []

/-- The row indices `(start..stop).step_by(4)` of the `for y` loop
(`MAXTHREADS = 4`). -/
def stepIndices (start stop : Nat) : List Nat := stepIndicesAux stop start stop

/-- The `for y in (thread_id..height).step_by(MAXTHREADS)` loop of `render`;
`sy` is incremented by `dy * MAXTHREADS` after each row. -/
def renderRows (dx dy : ℚ) : List Nat → ℚ → GlobalSettings → GlobalSettings
  | [], _, g => g
  | y :: ys, sy, g =>
    renderRows dx dy ys (sy + dy * 4) (renderCols dx y sy (List.range g.img.width) wx1 g)

/-- `render(thread_id, globals)`. -/
def render (thread_id : Nat) (g : GlobalSettings) : GlobalSettings :=
  let dx : ℚ := (wx2 - wx1) / (g.img.width : ℚ)
  let dy : ℚ := (wy2 - wy1) / (g.img.height : ℚ)
  renderRows dx dy (stepIndices thread_id g.img.height) (wy1 + dy * (thread_id : ℚ)) g

/-- Sequential execution of a list of `render` calls (the four simulated
worker calls in `main` are `applyRenders [0, 1, 2, 3]`). -/
def applyRenders (l : List Nat) (g : GlobalSettings) : GlobalSettings :=
  l.foldl (fun g' w => render w g') g

/-- Closed form of the pixel ultimately stored at `(x, y)`: a function of the
scene, the image dimensions and the pixel coordinates only. -/
def pixelValue (prims : List PrimSphere) (lights : List Light) (w h : Nat)
    (x y : Nat) : Rgba :=
  colorToRgba (tracePF 5 prims lights
    (mkCameraRay (wx1 + (wx2 - wx1) / (w : ℚ) * (x : ℚ))
      (wy1 + (wy2 - wy1) / (h : ℚ) * (y : ℚ))) 0)

/-! ### Helpers for stating the claims -/

/-- Sum of a list of vectors (for stating the per-light accumulation). -/
def v3d_sum : List Vector3D → Vector3D
  | [] => ⟨0, 0, 0⟩
  | v :: rest => v3d_add v (v3d_sum rest)

/-- The total contribution of one light-loop iteration:
diffuse + specular + (inside the loop!) the mirror-reflection term. -/
def lightContrib (recur : Ray → Vector3D) (ray : Ray) (prim : PrimSphere)
    (pi : Vector3D) (refl_depth : Nat) (light : Light) : Vector3D :=
  let l := v3d_norm (v3d_sub light.position pi)
  let n := prim.normal pi
  v3d_add (v3d_add (diffuseAdd prim n l light) (specularAdd ray prim n l light))
    (if prim.m.reflective > 0 ∧ refl_depth < 4 then
      v3d_mul_v3d (v3d_mul_scalar (recur (reflectRay ray n pi)) prim.m.reflective)
        prim.m.color
    else ⟨0, 0, 0⟩)

/-- Claim C3's description of the intersection test, written from the spec's
words: `v`, `b`, `discriminant`; no intersection when `discriminant <= 0`,
otherwise roots `near`/`far` with the inside/outside case split. -/
def intersectSpec (s : PrimSphere) (ray : Ray) (dist : ℚ) : Int × ℚ :=
  let v := v3d_sub ray.origin s.position
  let b := - v3d_dot_mul v ray.direction
  let disc := s.radius * s.radius - v3d_dot_mul v v + b * b
  if disc ≤ 0 then (0, dist)
  else
    let t := ratSqrt disc
    let near := b - t
    let far := b + t
    if far > 0 ∧ near < 0 then (-1, far)
    else if far > 0 ∧ near ≥ 0 then (1, near)
    else (0, dist)

/-- Claim C2's literal specular formula: reflect `L` about `N` as
`R = N*2*dot(L,N) - L`, add `dot(D,R)^8 * coeff * lightColor` when
`dot(D,R) > 0`, nothing otherwise. -/
def specularClaim (ray : Ray) (n l : Vector3D) (coeff : ℚ)
    (lightColor : Vector3D) : Vector3D :=
  let r := v3d_sub (v3d_mul_scalar n (2 * v3d_dot_mul l n)) l
  let dot := v3d_dot_mul ray.direction r
  if dot > 0 then v3d_mul_scalar lightColor (dot ^ 8 * coeff) else ⟨0, 0, 0⟩

/-- The amended specular formula (claim C2 with the reflection written the
way the code computes it): `R = L - N*2*dot(L,N)`, add
`dot(D,R)^8 * coeff * lightColor` when `dot(D,R) > 0`. -/
def specularAmended (ray : Ray) (n l : Vector3D) (coeff : ℚ)
    (lightColor : Vector3D) : Vector3D :=
  let r := v3d_sub l (v3d_mul_scalar n (2 * v3d_dot_mul l n))
  let dot := v3d_dot_mul ray.direction r
  if dot > 0 then v3d_mul_scalar lightColor (dot ^ 8 * coeff) else ⟨0, 0, 0⟩

/-- Claim C9's literal normal formula: `normalize(P - sphereCenter)` scaled
afterwards by `1/radius`. -/
def normalClaim (s : PrimSphere) (pos : Vector3D) : Vector3D :=
  v3d_mul_scalar (v3d_norm (v3d_sub pos s.position)) (1 / s.radius)

/-! ### Vector algebra lemmas -/

theorem v3d_add_zero (v : Vector3D) : v3d_add v ⟨0, 0, 0⟩ = v := by
  cases v; simp [v3d_add]

theorem v3d_add_assoc (a b c : Vector3D) :
    v3d_add (v3d_add a b) c = v3d_add a (v3d_add b c) := by
  cases a; cases b; cases c
  simp only [v3d_add, Vector3D.mk.injEq]
  exact ⟨by ring, by ring, by ring⟩

/-! ### Bridging the state-threading functions to their pure versions -/

theorem lightLoopF_eq_pure (recur : Ray → GlobalSettings → Vector3D × GlobalSettings)
    (recurP : Ray → Vector3D) (g : GlobalSettings)
    (h : ∀ r, recur r g = (recurP r, g))
    (ray : Ray) (prim : PrimSphere) (pi : Vector3D) (d : Nat) :
    ∀ lights color,
      lightLoopF recur ray prim pi d lights color g =
        (lightLoopP recurP ray prim pi d lights color, g) := by
  intro lights
  induction lights with
  | nil => intro color; rfl
  | cons light rest ih =>
    intro color
    simp only [lightLoopF, lightLoopP]
    by_cases hc : prim.m.reflective > 0 ∧ d < 4
    · simp only [if_pos hc, h]
      exact ih _
    · simp only [if_neg hc]
      exact ih _

theorem traceF_eq_pure : ∀ (fuel : Nat) (g : GlobalSettings) (ray : Ray) (d : Nat),
    traceF fuel g ray d =
      (tracePF fuel (g.primitive_list.take g.primitive_count)
        (g.light_list.take g.light_count) ray d, g) := by
  intro fuel
  induction fuel with
  | zero => intro g ray d; rfl
  | succ n ih =>
    intro g ray d
    simp only [traceF, tracePF]
    cases hscan : (findNearest ray (g.primitive_list.take g.primitive_count)
        1000000000 none).2 with
    | none => simp [hscan]
    | some prim =>
      simp only [hscan]
      exact lightLoopF_eq_pure _ _ g (fun r => ih g r (d + 1)) ray prim _ d _ _

theorem trace_eq_pure (g : GlobalSettings) (ray : Ray) (d : Nat) :
    trace g ray d =
      (tracePF (4 - d + 1) (g.primitive_list.take g.primitive_count)
        (g.light_list.take g.light_count) ray d, g) :=
  traceF_eq_pure _ g ray d

/-! ### Fuel irrelevance: recursion depth of `trace` is bounded by 4 -/

theorem lightLoopP_congr (recur₁ recur₂ : Ray → Vector3D)
    (ray : Ray) (prim : PrimSphere) (pi : Vector3D) (d : Nat)
    (h : d < 4 → ∀ r, recur₁ r = recur₂ r) :
    ∀ lights color,
      lightLoopP recur₁ ray prim pi d lights color =
        lightLoopP recur₂ ray prim pi d lights color := by
  intro lights
  induction lights with
  | nil => intro color; rfl
  | cons light rest ih =>
    intro color
    simp only [lightLoopP]
    by_cases hc : prim.m.reflective > 0 ∧ d < 4
    · simp only [if_pos hc, h hc.2]
      exact ih _
    · simp only [if_neg hc]
      exact ih _

theorem tracePF_fuel_irrel : ∀ (f₁ f₂ : Nat) (prims : List PrimSphere)
    (lights : List Light) (ray : Ray) (d : Nat), 4 - d < f₁ → 4 - d < f₂ →
    tracePF f₁ prims lights ray d = tracePF f₂ prims lights ray d := by
  intro f₁
  induction f₁ with
  | zero => intro f₂ prims lights ray d h1; omega
  | succ n ih =>
    intro f₂ prims lights ray d h1 h2
    cases f₂ with
    | zero => omega
    | succ m =>
      simp only [tracePF]
      cases hscan : (findNearest ray prims 1000000000 none).2 with
      | none => rfl
      | some prim =>
        simp only [hscan]
        exact lightLoopP_congr _ _ ray prim _ d
          (fun hd r => ih m prims lights r (d + 1) (by omega) (by omega)) _ _

/-! ### Unfolding lemmas for `tracePF` -/

theorem tracePF_succ_none (f : Nat) (prims : List PrimSphere) (lights : List Light)
    (ray : Ray) (d : Nat)
    (h : (findNearest ray prims 1000000000 none).2 = none) :
    tracePF (f + 1) prims lights ray d = backgroundColor := by
  simp [tracePF, h]

theorem tracePF_succ_hit (f : Nat) (prims : List PrimSphere) (lights : List Light)
    (ray : Ray) (d : Nat) (dist : ℚ) (prim : PrimSphere)
    (h : findNearest ray prims 1000000000 none = (dist, some prim)) :
    tracePF (f + 1) prims lights ray d =
      lightLoopP (fun r => tracePF f prims lights r (d + 1)) ray prim
        (v3d_add (v3d_mul_scalar ray.direction dist) ray.origin) d lights
        backgroundColor := by
  simp [tracePF, h]

/-! ### `findNearest` characterization -/

theorem findNearest_dist_le : ∀ (l : List PrimSphere) (ray : Ray) (dist : ℚ)
    (prim : Option PrimSphere), (findNearest ray l dist prim).1 ≤ dist := by
  intro l
  induction l with
  | nil => intro ray dist prim; exact le_refl _
  | cons p rest ih =>
    intro ray dist prim
    simp only [findNearest]
    by_cases h0 : (PrimSphere.intersect p ray 0).1 = 0
    · simp only [if_pos h0]; exact ih _ _ _
    · simp only [if_neg h0]
      by_cases hlt : (PrimSphere.intersect p ray 0).2 < dist
      · simp only [if_pos hlt]
        exact le_trans (ih _ _ _) (le_of_lt hlt)
      · simp only [if_neg hlt]; exact ih _ _ _

theorem findNearest_min : ∀ (l : List PrimSphere) (ray : Ray) (dist : ℚ)
    (prim : Option PrimSphere) (q : PrimSphere), q ∈ l →
    (PrimSphere.intersect q ray 0).1 ≠ 0 →
    (findNearest ray l dist prim).1 ≤ (PrimSphere.intersect q ray 0).2 := by
  intro l
  induction l with
  | nil => intro ray dist prim q hq; exact absurd hq (List.not_mem_nil q)
  | cons p rest ih =>
    intro ray dist prim q hq hhit
    simp only [findNearest]
    rcases List.mem_cons.mp hq with hqp | hqr
    · subst hqp
      simp only [if_neg hhit]
      by_cases hlt : (PrimSphere.intersect q ray 0).2 < dist
      · simp only [if_pos hlt]
        exact findNearest_dist_le _ _ _ _
      · simp only [if_neg hlt]
        exact le_trans (findNearest_dist_le _ _ _ _) (le_of_not_lt hlt)
    · by_cases h0 : (PrimSphere.intersect p ray 0).1 = 0
      · simp only [if_pos h0]; exact ih _ _ _ _ hqr hhit
      · simp only [if_neg h0]
        by_cases hlt : (PrimSphere.intersect p ray 0).2 < dist
        · simp only [if_pos hlt]; exact ih _ _ _ _ hqr hhit
        · simp only [if_neg hlt]; exact ih _ _ _ _ hqr hhit

theorem findNearest_some_ne_none : ∀ (l : List PrimSphere) (ray : Ray) (dist : ℚ)
    (p : PrimSphere), (findNearest ray l dist (some p)).2 ≠ none := by
  intro l
  induction l with
  | nil => intro ray dist p h; exact Option.noConfusion h
  | cons q rest ih =>
    intro ray dist p
    simp only [findNearest]
    by_cases h0 : (PrimSphere.intersect q ray 0).1 = 0
    · simp only [if_pos h0]; exact ih _ _ _
    · simp only [if_neg h0]
      by_cases hlt : (PrimSphere.intersect q ray 0).2 < dist
      · simp only [if_pos hlt]; exact ih _ _ _
      · simp only [if_neg hlt]; exact ih _ _ _

theorem findNearest_none_iff : ∀ (l : List PrimSphere) (ray : Ray) (dist : ℚ),
    (findNearest ray l dist none).2 = none ↔
      ∀ q ∈ l, (PrimSphere.intersect q ray 0).1 ≠ 0 →
        dist ≤ (PrimSphere.intersect q ray 0).2 := by
  intro l
  induction l with
  | nil => intro ray dist; simp [findNearest]
  | cons p rest ih =>
    intro ray dist
    simp only [findNearest]
    by_cases h0 : (PrimSphere.intersect p ray 0).1 = 0
    · simp only [if_pos h0]
      rw [ih]
      constructor
      · intro h q hq hhit
        rcases List.mem_cons.mp hq with hqp | hqr
        · subst hqp; exact absurd h0 hhit
        · exact h q hqr hhit
      · intro h q hq hhit
        exact h q (List.mem_cons_of_mem _ hq) hhit
    · simp only [if_neg h0]
      by_cases hlt : (PrimSphere.intersect p ray 0).2 < dist
      · simp only [if_pos hlt]
        constructor
        · intro h
          exact absurd h (findNearest_some_ne_none rest ray _ p)
        · intro h
          exact absurd (h p (List.mem_cons_self p rest) h0) (not_le_of_lt hlt)
      · simp only [if_neg hlt]
        rw [ih]
        constructor
        · intro h q hq hhit
          rcases List.mem_cons.mp hq with hqp | hqr
          · subst hqp; exact le_of_not_lt hlt
          · exact h q hqr hhit
        · intro h q hq hhit
          exact h q (List.mem_cons_of_mem _ hq) hhit

theorem findNearest_result : ∀ (l : List PrimSphere) (ray : Ray) (dist : ℚ)
    (prim : Option PrimSphere),
    findNearest ray l dist prim = (dist, prim) ∨
    ∃ p, p ∈ l ∧
      findNearest ray l dist prim = ((PrimSphere.intersect p ray 0).2, some p) ∧
      (PrimSphere.intersect p ray 0).1 ≠ 0 ∧
      (PrimSphere.intersect p ray 0).2 < dist := by
  intro l
  induction l with
  | nil => intro ray dist prim; left; rfl
  | cons p rest ih =>
    intro ray dist prim
    simp only [findNearest]
    by_cases h0 : (PrimSphere.intersect p ray 0).1 = 0
    · simp only [if_pos h0]
      rcases ih ray dist prim with h | ⟨q, hq, hres, hhit, hlt⟩
      · left; exact h
      · right; exact ⟨q, List.mem_cons_of_mem _ hq, hres, hhit, hlt⟩
    · simp only [if_neg h0]
      by_cases hlt : (PrimSphere.intersect p ray 0).2 < dist
      · simp only [if_pos hlt]
        rcases ih ray (PrimSphere.intersect p ray 0).2 (some p) with h |
            ⟨q, hq, hres, hhit, hlt'⟩
        · right; exact ⟨p, List.mem_cons_self p rest, h, h0, hlt⟩
        · right
          exact ⟨q, List.mem_cons_of_mem _ hq, hres, hhit, lt_trans hlt' hlt⟩
      · simp only [if_neg hlt]
        rcases ih ray dist prim with h | ⟨q, hq, hres, hhit, hlt'⟩
        · left; exact h
        · right; exact ⟨q, List.mem_cons_of_mem _ hq, hres, hhit, hlt'⟩

theorem findNearest_hit_char (l : List PrimSphere) (ray : Ray) (dist d' : ℚ)
    (p' : PrimSphere) (h : findNearest ray l dist none = (d', some p')) :
    p' ∈ l ∧ (PrimSphere.intersect p' ray 0).1 ≠ 0 ∧
      (PrimSphere.intersect p' ray 0).2 = d' ∧ d' < dist := by
  rcases findNearest_result l ray dist none with h0 | ⟨p, hp, hres, hhit, hlt⟩
  · have hcontr := h0.symm.trans h
    simp at hcontr
  · rw [hres] at h
    have h1 : (PrimSphere.intersect p ray 0).2 = d' := congrArg Prod.fst h
    have h2 : p = p' := by
      have := congrArg Prod.snd h
      simpa using this
    subst h2
    exact ⟨hp, hhit, h1, h1 ▸ hlt⟩

/-! ### Per-light decomposition of the shading loop -/

@[simp] theorem v3d_add_x (a b : Vector3D) : (v3d_add a b).x = a.x + b.x := rfl

@[simp] theorem v3d_add_y (a b : Vector3D) : (v3d_add a b).y = a.y + b.y := rfl

@[simp] theorem v3d_add_z (a b : Vector3D) : (v3d_add a b).z = a.z + b.z := rfl

theorem lightLoopP_eq_sum (recur : Ray → Vector3D) (ray : Ray) (prim : PrimSphere)
    (pi : Vector3D) (d : Nat) :
    ∀ (lights : List Light) (color : Vector3D),
      lightLoopP recur ray prim pi d lights color =
        v3d_add color (v3d_sum (lights.map (lightContrib recur ray prim pi d))) := by
  intro lights
  induction lights with
  | nil => intro color; simp [lightLoopP, v3d_sum, v3d_add_zero]
  | cons light rest ih =>
    intro color
    simp only [lightLoopP, List.map_cons, v3d_sum, lightContrib]
    by_cases hc : prim.m.reflective > 0 ∧ d < 4
    · simp only [if_pos hc]
      rw [ih]
      ext <;> simp only [v3d_add_x, v3d_add_y, v3d_add_z] <;> ring
    · simp only [if_neg hc]
      rw [ih]
      ext <;> simp only [v3d_add_x, v3d_add_y, v3d_add_z] <;> simp <;> ring

theorem lightContrib_congr (recur₁ recur₂ : Ray → Vector3D) (ray : Ray)
    (prim : PrimSphere) (pi : Vector3D) (d : Nat) (light : Light)
    (h : d < 4 → ∀ r, recur₁ r = recur₂ r) :
    lightContrib recur₁ ray prim pi d light = lightContrib recur₂ ray prim pi d light := by
  simp only [lightContrib]
  by_cases hc : prim.m.reflective > 0 ∧ d < 4
  · simp only [if_pos hc, h hc.2]
  · simp only [if_neg hc]

/-! ### Claim C3 -/

/-- Claim C3 (confirmed): the ray–sphere intersection test computes
`v = O - C`, `b = -dot(v,D)`, `discriminant = r² - dot(v,v) + b²`, reports no
intersection when the discriminant is `≤ 0`, and otherwise, with
`t = sqrt(discriminant)`, `near = b - t`, `far = b + t`, reports an inside
hit (retval -1) with distance `far` when `far > 0 ∧ near < 0`, an outside hit
(retval 1) with distance `near` when `far > 0 ∧ near ≥ 0`, and no
intersection otherwise (`dist` is left unchanged on a miss). -/
theorem C3_intersect_matches_spec (s : PrimSphere) (ray : Ray) (dist : ℚ) :
    PrimSphere.intersect s ray dist = intersectSpec s ray dist := by
  simp only [PrimSphere.intersect, intersectSpec]
  set v := v3d_sub ray.origin s.position
  set b := - v3d_dot_mul v ray.direction
  have hkey : b * b + (s.radius * s.radius - v3d_dot_mul v v)
      = s.radius * s.radius - v3d_dot_mul v v + b * b := by ring
  rw [hkey]
  by_cases hle : s.radius * s.radius - v3d_dot_mul v v + b * b ≤ 0
  · rw [if_neg (not_lt.mpr hle), if_pos hle]
  · rw [if_pos (not_le.mp hle), if_neg hle]

/-! ### Claim C2 -/

/-- Claim C2 (corrected): at the concrete hit of the axis ray on the unit
sphere, with `N = L = (0,0,-1)` (which the adjacent conjuncts show to be the
actual normal and normalized light direction for a light at `(0,0,-10)`),
the code adds a positive specular term while the claim's formula
`R = N*2*dot(L,N) - L` with condition `dot(D,R) > 0` adds nothing: the claim
as stated is false on the code. -/
theorem C2_counterexample :
    PrimSphere.normal ⟨⟨0, 0, 0⟩, 1, ⟨1, 0, 0, ⟨1, 1, 1⟩⟩⟩ ⟨0, 0, -1⟩ = ⟨0, 0, -1⟩ ∧
    v3d_norm (v3d_sub ⟨0, 0, -10⟩ ⟨0, 0, -1⟩) = ⟨0, 0, -1⟩ ∧
    specularAdd ⟨⟨0, 0, 1⟩, ⟨0, 0, -5⟩⟩ ⟨⟨0, 0, 0⟩, 1, ⟨1, 0, 0, ⟨1, 1, 1⟩⟩⟩
        ⟨0, 0, -1⟩ ⟨0, 0, -1⟩ ⟨⟨0, 0, -10⟩, ⟨2, 2, 2⟩⟩ = ⟨2, 2, 2⟩ ∧
    specularClaim ⟨⟨0, 0, 1⟩, ⟨0, 0, -5⟩⟩ ⟨0, 0, -1⟩ ⟨0, 0, -1⟩ 1 ⟨2, 2, 2⟩ = ⟨0, 0, 0⟩ ∧
    specularAdd ⟨⟨0, 0, 1⟩, ⟨0, 0, -5⟩⟩ ⟨⟨0, 0, 0⟩, 1, ⟨1, 0, 0, ⟨1, 1, 1⟩⟩⟩
        ⟨0, 0, -1⟩ ⟨0, 0, -1⟩ ⟨⟨0, 0, -10⟩, ⟨2, 2, 2⟩⟩ ≠
      specularClaim ⟨⟨0, 0, 1⟩, ⟨0, 0, -5⟩⟩ ⟨0, 0, -1⟩ ⟨0, 0, -1⟩ 1 ⟨2, 2, 2⟩ := by
  refine ⟨by decide, by decide, by decide, by decide, by decide⟩

/-- Claim C2 (amended): the specular contribution reflects `L` about `N` as
`R = L - N*2*dot(L,N)` (the negation of the claim's formula, matching the
code comment `R = L - N * L.Dot(N) * 2.0`), and when `dot(rayDirection, R)`
is positive adds that dot raised to the 8th power scaled by
`specularCoeff * lightColor`; nothing is added when that dot is not positive
(for nonnegative specular coefficients, the code's extra `specular > 0` guard
changes nothing). -/
theorem C2_specular_formula (ray : Ray) (prim : PrimSphere) (n l : Vector3D)
    (light : Light) (h : 0 ≤ prim.m.specular) :
    specularAdd ray prim n l light =
      specularAmended ray n l prim.m.specular light.color := by
  simp only [specularAdd, specularAmended]
  have hr : v3d_mul_scalar n (v3d_dot_mul l n * 2)
      = v3d_mul_scalar n (2 * v3d_dot_mul l n) := by rw [mul_comm]
  rw [hr]
  rcases lt_or_eq_of_le h with hpos | hzero
  · rw [if_pos hpos]
    by_cases hd : v3d_dot_mul ray.direction
        (v3d_sub l (v3d_mul_scalar n (2 * v3d_dot_mul l n))) > 0
    · rw [if_pos hd, if_pos hd]
      ext <;> simp only [v3d_mul_scalar] <;> ring
    · rw [if_neg hd, if_neg hd]
  · rw [if_neg (by rw [← hzero]; exact lt_irrefl 0)]
    by_cases hd : v3d_dot_mul ray.direction
        (v3d_sub l (v3d_mul_scalar n (2 * v3d_dot_mul l n))) > 0
    · rw [if_pos hd]
      ext <;> simp only [v3d_mul_scalar] <;> rw [← hzero] <;> ring
    · rw [if_neg hd]

/-- Witness for `C2_specular_formula` at a concrete hit configuration. -/
theorem C2_witness :
    specularAdd ⟨⟨0, 0, 1⟩, ⟨0, 0, -5⟩⟩ ⟨⟨0, 0, 0⟩, 1, ⟨1, 0, 0, ⟨1, 1, 1⟩⟩⟩
        ⟨0, 0, -1⟩ ⟨0, 0, -1⟩ ⟨⟨0, 0, -10⟩, ⟨2, 2, 2⟩⟩ =
      specularAmended ⟨⟨0, 0, 1⟩, ⟨0, 0, -5⟩⟩ ⟨0, 0, -1⟩ ⟨0, 0, -1⟩ 1 ⟨2, 2, 2⟩ :=
  C2_specular_formula ⟨⟨0, 0, 1⟩, ⟨0, 0, -5⟩⟩ ⟨⟨0, 0, 0⟩, 1, ⟨1, 0, 0, ⟨1, 1, 1⟩⟩⟩
    ⟨0, 0, -1⟩ ⟨0, 0, -1⟩ ⟨⟨0, 0, -10⟩, ⟨2, 2, 2⟩⟩ (by decide)

/-! ### Claim C5 -/

/-- Claim C5 (confirmed): `trace` terminates with recursion depth bounded by
4.  First conjunct: any fuel strictly greater than `4 - depth` computes the
same result as `trace` (whose own fuel is `4 - depth + 1`), i.e. the
recursion guarded by `refl_depth < 4` and advancing by exactly 1 never needs
more than `4 - depth` further unfoldings, regardless of the reflective
coefficient.  Second conjunct: once `depth ≥ 4`, the shading loop's result
does not depend on the recursive-call function at all — the reflection
contributes nothing further. -/
theorem C5_depth_bounded :
    (∀ (f : Nat) (g : GlobalSettings) (ray : Ray) (d : Nat), 4 - d < f →
      traceF f g ray d = trace g ray d) ∧
    (∀ (recur₁ recur₂ : Ray → Vector3D) (ray : Ray) (prim : PrimSphere)
      (pi : Vector3D) (d : Nat) (lights : List Light) (color : Vector3D), 4 ≤ d →
      lightLoopP recur₁ ray prim pi d lights color =
        lightLoopP recur₂ ray prim pi d lights color) := by
  constructor
  · intro f g ray d h
    rw [traceF_eq_pure, trace_eq_pure]
    exact congrArg (fun c => (c, g))
      (tracePF_fuel_irrel f (4 - d + 1) _ _ ray d h (by omega))
  · intro recur₁ recur₂ ray prim pi d lights color h4
    exact lightLoopP_congr recur₁ recur₂ ray prim pi d
      (fun hd _ => absurd hd (by omega)) lights color

/-- Witness for `C5_depth_bounded` on concrete inputs. -/
theorem C5_witness :
    traceF 6 ⟨⟨0, 0, fun _ _ => ⟨0, 0, 0, 0⟩⟩, 0, [], 0, []⟩ ⟨⟨0, 0, 1⟩, ⟨0, 0, 0⟩⟩ 0 =
      trace ⟨⟨0, 0, fun _ _ => ⟨0, 0, 0, 0⟩⟩, 0, [], 0, []⟩ ⟨⟨0, 0, 1⟩, ⟨0, 0, 0⟩⟩ 0 ∧
    lightLoopP (fun _ => ⟨0, 0, 0⟩) ⟨⟨0, 0, 1⟩, ⟨0, 0, 0⟩⟩
        ⟨⟨0, 0, 0⟩, 1, ⟨0, 0, 1, ⟨1, 1, 1⟩⟩⟩ ⟨0, 0, -1⟩ 4
        [⟨⟨0, 0, 0⟩, ⟨2, 2, 2⟩⟩] ⟨0, 0, 0⟩ =
      lightLoopP (fun _ => ⟨1, 1, 1⟩) ⟨⟨0, 0, 1⟩, ⟨0, 0, 0⟩⟩
        ⟨⟨0, 0, 0⟩, 1, ⟨0, 0, 1, ⟨1, 1, 1⟩⟩⟩ ⟨0, 0, -1⟩ 4
        [⟨⟨0, 0, 0⟩, ⟨2, 2, 2⟩⟩] ⟨0, 0, 0⟩ :=
  ⟨C5_depth_bounded.1 6 _ _ 0 (by decide),
   C5_depth_bounded.2 _ _ _ _ _ 4 _ _ (by decide)⟩

/-! ### Claim C8 -/

/-- Claim C8 (confirmed): `add_sphere` appends the new sphere and increments
the sphere count exactly when the current count is `< 64`, `add_light`
exactly when the current count is `< 10`; at capacity the request is silently
ignored and the whole state is returned unchanged. -/
theorem C8_capacity (pos : Vector3D) (rad : ℚ) (m : Material)
    (lpos lcol : Vector3D) (g : GlobalSettings) :
    (g.primitive_count < 64 →
      add_sphere pos rad m g =
        { g with
          primitive_list := g.primitive_list ++ [⟨⟨pos.x, pos.y, pos.z⟩, rad, m⟩],
          primitive_count := g.primitive_count + 1 }) ∧
    (¬ g.primitive_count < 64 → add_sphere pos rad m g = g) ∧
    (g.light_count < 10 →
      add_light lpos lcol g =
        { g with
          light_list := g.light_list ++
            [⟨⟨lpos.x, lpos.y, lpos.z⟩, ⟨lcol.x, lcol.y, lcol.z⟩⟩],
          light_count := g.light_count + 1 }) ∧
    (¬ g.light_count < 10 → add_light lpos lcol g = g) := by
  refine ⟨fun h => ?_, fun h => ?_, fun h => ?_, fun h => ?_⟩ <;>
    simp [add_sphere, add_light, h]

/-- Witness for `C8_capacity`: an under-capacity scene appends, an
at-capacity scene is left untouched. -/
theorem C8_witness :
    add_sphere ⟨1, 2, 3⟩ 5 ⟨0, 0, 0, ⟨1, 1, 1⟩⟩
        ⟨⟨0, 0, fun _ _ => ⟨0, 0, 0, 0⟩⟩, 0, [], 0, []⟩ =
      ⟨⟨0, 0, fun _ _ => ⟨0, 0, 0, 0⟩⟩, 1, [⟨⟨1, 2, 3⟩, 5, ⟨0, 0, 0, ⟨1, 1, 1⟩⟩⟩], 0, []⟩ ∧
    add_sphere ⟨1, 2, 3⟩ 5 ⟨0, 0, 0, ⟨1, 1, 1⟩⟩
        ⟨⟨0, 0, fun _ _ => ⟨0, 0, 0, 0⟩⟩, 64, [], 10, []⟩ =
      ⟨⟨0, 0, fun _ _ => ⟨0, 0, 0, 0⟩⟩, 64, [], 10, []⟩ ∧
    add_light ⟨1, 2, 3⟩ ⟨4, 5, 6⟩ ⟨⟨0, 0, fun _ _ => ⟨0, 0, 0, 0⟩⟩, 0, [], 0, []⟩ =
      ⟨⟨0, 0, fun _ _ => ⟨0, 0, 0, 0⟩⟩, 0, [], 1, [⟨⟨1, 2, 3⟩, ⟨4, 5, 6⟩⟩]⟩ ∧
    add_light ⟨1, 2, 3⟩ ⟨4, 5, 6⟩ ⟨⟨0, 0, fun _ _ => ⟨0, 0, 0, 0⟩⟩, 64, [], 10, []⟩ =
      ⟨⟨0, 0, fun _ _ => ⟨0, 0, 0, 0⟩⟩, 64, [], 10, []⟩ :=
  ⟨(C8_capacity ⟨1, 2, 3⟩ 5 ⟨0, 0, 0, ⟨1, 1, 1⟩⟩ ⟨1, 2, 3⟩ ⟨4, 5, 6⟩
      ⟨⟨0, 0, fun _ _ => ⟨0, 0, 0, 0⟩⟩, 0, [], 0, []⟩).1 (by decide),
   (C8_capacity ⟨1, 2, 3⟩ 5 ⟨0, 0, 0, ⟨1, 1, 1⟩⟩ ⟨1, 2, 3⟩ ⟨4, 5, 6⟩
      ⟨⟨0, 0, fun _ _ => ⟨0, 0, 0, 0⟩⟩, 64, [], 10, []⟩).2.1 (by decide),
   (C8_capacity ⟨1, 2, 3⟩ 5 ⟨0, 0, 0, ⟨1, 1, 1⟩⟩ ⟨1, 2, 3⟩ ⟨4, 5, 6⟩
      ⟨⟨0, 0, fun _ _ => ⟨0, 0, 0, 0⟩⟩, 0, [], 0, []⟩).2.2.1 (by decide),
   (C8_capacity ⟨1, 2, 3⟩ 5 ⟨0, 0, 0, ⟨1, 1, 1⟩⟩ ⟨1, 2, 3⟩ ⟨4, 5, 6⟩
      ⟨⟨0, 0, fun _ _ => ⟨0, 0, 0, 0⟩⟩, 64, [], 10, []⟩).2.2.2 (by decide)⟩

/-! ### Claim C9 -/

/-- Claim C9 (corrected) counterexample: for the sphere of radius 2 hit at
`(0,0,-2)`, the code's normal (scaling by `1/radius` BEFORE normalizing) is
the unit vector `(0,0,-1)`, while the claim's literal formula
`normalize(P - sphereCenter) * (1/radius)` gives `(0,0,-1/2)`. -/
theorem C9_counterexample :
    PrimSphere.normal ⟨⟨0, 0, 0⟩, 2, ⟨0, 0, 0, ⟨1, 1, 1⟩⟩⟩ ⟨0, 0, -2⟩ = ⟨0, 0, -1⟩ ∧
    normalClaim ⟨⟨0, 0, 0⟩, 2, ⟨0, 0, 0, ⟨1, 1, 1⟩⟩⟩ ⟨0, 0, -2⟩ = ⟨0, 0, -1/2⟩ ∧
    PrimSphere.normal ⟨⟨0, 0, 0⟩, 2, ⟨0, 0, 0, ⟨1, 1, 1⟩⟩⟩ ⟨0, 0, -2⟩ ≠
      normalClaim ⟨⟨0, 0, 0⟩, 2, ⟨0, 0, 0, ⟨1, 1, 1⟩⟩⟩ ⟨0, 0, -2⟩ :=
  ⟨by decide, by decide, by decide⟩

/-- Claim C9 (amended): the shading point is `P = O + D*dist` and the surface
normal is `normalize((P - sphereCenter) * (1/radius))` — the normalization is
applied AFTER the `1/radius` scaling; for a unit sphere at the origin hit at
`(0,0,-1)` the normal is `(0,0,-1)`.  The last conjunct exhibits the hit
point actually fed to the shading loop by `trace`. -/
theorem C9_hit_point_and_normal :
    (∀ (s : PrimSphere) (pos : Vector3D),
      s.normal pos = v3d_norm (v3d_mul_scalar (v3d_sub pos s.position) (1 / s.radius))) ∧
    (PrimSphere.normal ⟨⟨0, 0, 0⟩, 1, ⟨0, 0, 0, ⟨1, 1, 1⟩⟩⟩ ⟨0, 0, -1⟩ = ⟨0, 0, -1⟩) ∧
    (∀ (g : GlobalSettings) (ray : Ray) (d : Nat) (dist : ℚ) (prim : PrimSphere),
      findNearest ray (g.primitive_list.take g.primitive_count) 1000000000 none
        = (dist, some prim) →
      (trace g ray d).1 =
        lightLoopP (fun r => (trace g r (d + 1)).1) ray prim
          (v3d_add (v3d_mul_scalar ray.direction dist) ray.origin) d
          (g.light_list.take g.light_count) backgroundColor) := by
  refine ⟨fun s pos => rfl, by decide, ?_⟩
  intro g ray d dist prim h
  rw [trace_eq_pure]
  dsimp only
  rw [tracePF_succ_hit (4 - d) _ _ ray d dist prim h]
  apply lightLoopP_congr
  intro hd r
  rw [trace_eq_pure]
  dsimp only
  have hfuel : 4 - d = 4 - (d + 1) + 1 := by omega
  rw [hfuel]

/-- Witness for the hit-point conjunct of `C9_hit_point_and_normal` on a
concrete one-sphere scene. -/
theorem C9_witness :
    (trace ⟨⟨0, 0, fun _ _ => ⟨0, 0, 0, 0⟩⟩, 1, [⟨⟨0, 0, 0⟩, 1, ⟨0, 0, 1, ⟨1, 1, 1⟩⟩⟩], 0, []⟩
        ⟨⟨0, 0, 1⟩, ⟨0, 0, -5⟩⟩ 0).1 =
      lightLoopP
        (fun r => (trace ⟨⟨0, 0, fun _ _ => ⟨0, 0, 0, 0⟩⟩, 1,
          [⟨⟨0, 0, 0⟩, 1, ⟨0, 0, 1, ⟨1, 1, 1⟩⟩⟩], 0, []⟩ r 1).1)
        ⟨⟨0, 0, 1⟩, ⟨0, 0, -5⟩⟩ ⟨⟨0, 0, 0⟩, 1, ⟨0, 0, 1, ⟨1, 1, 1⟩⟩⟩
        (v3d_add (v3d_mul_scalar ⟨0, 0, 1⟩ 4) ⟨0, 0, -5⟩) 0 [] backgroundColor :=
  C9_hit_point_and_normal.2.2
    ⟨⟨0, 0, fun _ _ => ⟨0, 0, 0, 0⟩⟩, 1, [⟨⟨0, 0, 0⟩, 1, ⟨0, 0, 1, ⟨1, 1, 1⟩⟩⟩], 0, []⟩
    ⟨⟨0, 0, 1⟩, ⟨0, 0, -5⟩⟩ 0 4 ⟨⟨0, 0, 0⟩, 1, ⟨0, 0, 1, ⟨1, 1, 1⟩⟩⟩ (by decide)

/-! ### Claim C1 -/

/-- Claim C1 (corrected) counterexample: a scene holding ONE fully reflective
sphere (`reflective = 1 > 0`) and ZERO lights.  The axis ray hits it at depth
`0 < 4` (first conjunct), yet `trace` returns exactly its initial accumulator
(second conjunct): the mirror-reflection contribution the claim mandates was
never added, because the reflection block sits inside the per-light loop and
that loop runs zero times.  The claim's predicted contribution is nonzero:
the reflected ray misses the sphere, so its recursive trace is the background
color (third conjunct), and adding `reflectiveCoeff * surfaceColor` times
that to the accumulator would change it (fourth conjunct). -/
theorem C1_counterexample :
    findNearest ⟨⟨0, 0, 1⟩, ⟨0, 0, -5⟩⟩
        (List.take 1 [⟨⟨0, 0, 0⟩, 1, ⟨0, 0, 1, ⟨1, 1, 1⟩⟩⟩]) 1000000000 none
      = (4, some ⟨⟨0, 0, 0⟩, 1, ⟨0, 0, 1, ⟨1, 1, 1⟩⟩⟩) ∧
    (trace ⟨⟨0, 0, fun _ _ => ⟨0, 0, 0, 0⟩⟩, 1, [⟨⟨0, 0, 0⟩, 1, ⟨0, 0, 1, ⟨1, 1, 1⟩⟩⟩], 0, []⟩
        ⟨⟨0, 0, 1⟩, ⟨0, 0, -5⟩⟩ 0).1 = backgroundColor ∧
    (trace ⟨⟨0, 0, fun _ _ => ⟨0, 0, 0, 0⟩⟩, 1, [⟨⟨0, 0, 0⟩, 1, ⟨0, 0, 1, ⟨1, 1, 1⟩⟩⟩], 0, []⟩
        (reflectRay ⟨⟨0, 0, 1⟩, ⟨0, 0, -5⟩⟩
          (PrimSphere.normal ⟨⟨0, 0, 0⟩, 1, ⟨0, 0, 1, ⟨1, 1, 1⟩⟩⟩
            (v3d_add (v3d_mul_scalar ⟨0, 0, 1⟩ 4) ⟨0, 0, -5⟩))
          (v3d_add (v3d_mul_scalar ⟨0, 0, 1⟩ 4) ⟨0, 0, -5⟩)) 1).1 = backgroundColor ∧
    backgroundColor ≠
      v3d_add backgroundColor
        (v3d_mul_v3d (v3d_mul_scalar backgroundColor 1) ⟨1, 1, 1⟩) :=
  ⟨by decide, by decide, by decide, by decide⟩

/-- Claim C1 (amended): on every hit, `trace` accumulates the initial
background tint plus, FOR EVERY LIGHT, the sum of that light's diffuse,
specular and mirror-reflection terms: the reflection block (guarded by
`reflective > 0 ∧ depth < 4`, recursing at `depth + 1` on the reflected ray
and scaling by `reflectiveCoeff * surfaceColor`) sits inside the per-light
loop, so its contribution is added once per light — zero times with zero
lights, L times with L lights — not once per hit. -/
theorem C1_reflection_added_per_light (g : GlobalSettings) (ray : Ray) (d : Nat)
    (dist : ℚ) (prim : PrimSphere)
    (h : findNearest ray (g.primitive_list.take g.primitive_count) 1000000000 none
      = (dist, some prim)) :
    (trace g ray d).1 =
      v3d_add backgroundColor
        (v3d_sum ((g.light_list.take g.light_count).map
          (lightContrib (fun r => (trace g r (d + 1)).1) ray prim
            (v3d_add (v3d_mul_scalar ray.direction dist) ray.origin) d))) := by
  rw [trace_eq_pure]
  dsimp only
  rw [tracePF_succ_hit (4 - d) _ _ ray d dist prim h]
  rw [lightLoopP_eq_sum]
  congr 1
  congr 1
  apply List.map_congr_left
  intro light _
  apply lightContrib_congr
  intro hd r
  rw [trace_eq_pure]
  dsimp only
  have hfuel : 4 - d = 4 - (d + 1) + 1 := by omega
  rw [hfuel]

/-- Witness for `C1_reflection_added_per_light` on a concrete scene with one
reflective sphere and two lights (the reflection term occurs once per light). -/
theorem C1_witness :
    (trace ⟨⟨0, 0, fun _ _ => ⟨0, 0, 0, 0⟩⟩, 1, [⟨⟨0, 0, 0⟩, 1, ⟨0, 0, 1, ⟨1, 1, 1⟩⟩⟩], 2,
        [⟨⟨0, 0, -10⟩, ⟨1, 1, 1⟩⟩, ⟨⟨0, 0, -10⟩, ⟨1, 1, 1⟩⟩]⟩
      ⟨⟨0, 0, 1⟩, ⟨0, 0, -5⟩⟩ 0).1 =
      v3d_add backgroundColor
        (v3d_sum ((List.take 2 [⟨⟨0, 0, -10⟩, ⟨1, 1, 1⟩⟩, ⟨⟨0, 0, -10⟩, ⟨1, 1, 1⟩⟩]).map
          (lightContrib
            (fun r => (trace ⟨⟨0, 0, fun _ _ => ⟨0, 0, 0, 0⟩⟩, 1,
              [⟨⟨0, 0, 0⟩, 1, ⟨0, 0, 1, ⟨1, 1, 1⟩⟩⟩], 2,
              [⟨⟨0, 0, -10⟩, ⟨1, 1, 1⟩⟩, ⟨⟨0, 0, -10⟩, ⟨1, 1, 1⟩⟩]⟩ r 1).1)
            ⟨⟨0, 0, 1⟩, ⟨0, 0, -5⟩⟩ ⟨⟨0, 0, 0⟩, 1, ⟨0, 0, 1, ⟨1, 1, 1⟩⟩⟩
            (v3d_add (v3d_mul_scalar ⟨0, 0, 1⟩ 4) ⟨0, 0, -5⟩) 0))) :=
  C1_reflection_added_per_light
    ⟨⟨0, 0, fun _ _ => ⟨0, 0, 0, 0⟩⟩, 1, [⟨⟨0, 0, 0⟩, 1, ⟨0, 0, 1, ⟨1, 1, 1⟩⟩⟩], 2,
      [⟨⟨0, 0, -10⟩, ⟨1, 1, 1⟩⟩, ⟨⟨0, 0, -10⟩, ⟨1, 1, 1⟩⟩]⟩
    ⟨⟨0, 0, 1⟩, ⟨0, 0, -5⟩⟩ 0 4 ⟨⟨0, 0, 0⟩, 1, ⟨0, 0, 1, ⟨1, 1, 1⟩⟩⟩ (by decide)

/-! ### Claim C4 -/

/-- Claim C4 (corrected) counterexample: a sphere centered at
`(0, 0, 1.5e9)` with radius `5e8`.  For the axis ray from the origin,
`intersect` REPORTS an intersection (retval 1, first conjunct) at distance
exactly `1000000000` (second conjunct) — but that equals the initial
sentinel distance of the scan, so the hit is discarded and `trace` returns
exactly the background color (third conjunct): the claim's "returns the
background exactly when no primitive reports an intersection" and "shades
the primitive with the minimum reported hit distance" both fail here. -/
theorem C4_counterexample :
    (PrimSphere.intersect ⟨⟨0, 0, 1500000000⟩, 500000000, ⟨0, 0, 0, ⟨1, 1, 1⟩⟩⟩
        ⟨⟨0, 0, 1⟩, ⟨0, 0, 0⟩⟩ 0).1 = 1 ∧
    (PrimSphere.intersect ⟨⟨0, 0, 1500000000⟩, 500000000, ⟨0, 0, 0, ⟨1, 1, 1⟩⟩⟩
        ⟨⟨0, 0, 1⟩, ⟨0, 0, 0⟩⟩ 0).2 = 1000000000 ∧
    (trace ⟨⟨0, 0, fun _ _ => ⟨0, 0, 0, 0⟩⟩, 1,
        [⟨⟨0, 0, 1500000000⟩, 500000000, ⟨0, 0, 0, ⟨1, 1, 1⟩⟩⟩], 0, []⟩
      ⟨⟨0, 0, 1⟩, ⟨0, 0, 0⟩⟩ 0).1 = backgroundColor :=
  ⟨by decide, by decide, by decide⟩

/-- Claim C4 (amended): `trace` scans all primitives linearly and keeps the
minimum reported hit distance among those strictly below the initial
sentinel `10⁹`.  First conjunct: a scene with zero primitives yields exactly
the background color for any ray and depth.  Second conjunct: if every
primitive either reports no intersection or reports one at distance `≥ 10⁹`,
`trace` returns exactly the background color.  Third conjunct: whenever the
scan selects a primitive, that primitive is one of the scanned ones, reported
a hit at exactly the selected distance, the distance is below the sentinel,
and it is minimal among all reported hit distances (nearest-hit rule). -/
theorem C4_nearest_hit_and_background :
    (∀ (g : GlobalSettings) (ray : Ray) (d : Nat), g.primitive_count = 0 →
      (trace g ray d).1 = backgroundColor) ∧
    (∀ (g : GlobalSettings) (ray : Ray) (d : Nat),
      (∀ q ∈ g.primitive_list.take g.primitive_count,
        (PrimSphere.intersect q ray 0).1 ≠ 0 →
          1000000000 ≤ (PrimSphere.intersect q ray 0).2) →
      (trace g ray d).1 = backgroundColor) ∧
    (∀ (g : GlobalSettings) (ray : Ray) (d : Nat) (dist : ℚ) (prim : PrimSphere),
      findNearest ray (g.primitive_list.take g.primitive_count) 1000000000 none
        = (dist, some prim) →
      prim ∈ g.primitive_list.take g.primitive_count ∧
      (PrimSphere.intersect prim ray 0).1 ≠ 0 ∧
      (PrimSphere.intersect prim ray 0).2 = dist ∧
      dist < 1000000000 ∧
      ∀ q ∈ g.primitive_list.take g.primitive_count,
        (PrimSphere.intersect q ray 0).1 ≠ 0 →
          dist ≤ (PrimSphere.intersect q ray 0).2) := by
  refine ⟨?_, ?_, ?_⟩
  · intro g ray d h0
    rw [trace_eq_pure]
    dsimp only
    rw [h0, List.take_zero]
    exact tracePF_succ_none (4 - d) [] _ ray d rfl
  · intro g ray d hall
    rw [trace_eq_pure]
    dsimp only
    exact tracePF_succ_none (4 - d) _ _ ray d
      ((findNearest_none_iff _ ray _).mpr hall)
  · intro g ray d dist prim h
    obtain ⟨hmem, hhit, hdist, hlt⟩ := findNearest_hit_char _ ray _ dist prim h
    refine ⟨hmem, hhit, hdist, hlt, ?_⟩
    intro q hq hqhit
    have hmin := findNearest_min _ ray 1000000000 none q hq hqhit
    rw [h] at hmin
    exact hmin

/-- Witness for `C4_nearest_hit_and_background`: the empty scene returns the
background, an all-miss scene returns the background, and on a hit the scan's
choice satisfies the nearest-hit characterization. -/
theorem C4_witness :
    ((trace ⟨⟨0, 0, fun _ _ => ⟨0, 0, 0, 0⟩⟩, 0, [], 0, []⟩
        ⟨⟨0, 0, 1⟩, ⟨0, 0, 0⟩⟩ 0).1 = backgroundColor) ∧
    ((trace ⟨⟨0, 0, fun _ _ => ⟨0, 0, 0, 0⟩⟩, 1, [⟨⟨0, 0, 0⟩, 1, ⟨0, 0, 1, ⟨1, 1, 1⟩⟩⟩], 0, []⟩
        ⟨⟨0, 0, 1⟩, ⟨0, 0, 7⟩⟩ 3).1 = backgroundColor) ∧
    (⟨⟨0, 0, 0⟩, 1, ⟨0, 0, 1, ⟨1, 1, 1⟩⟩⟩ : PrimSphere) ∈
      List.take 1 [⟨⟨0, 0, 0⟩, 1, ⟨0, 0, 1, ⟨1, 1, 1⟩⟩⟩] ∧
    (PrimSphere.intersect ⟨⟨0, 0, 0⟩, 1, ⟨0, 0, 1, ⟨1, 1, 1⟩⟩⟩
        ⟨⟨0, 0, 1⟩, ⟨0, 0, -5⟩⟩ 0).1 ≠ 0 ∧
    (PrimSphere.intersect ⟨⟨0, 0, 0⟩, 1, ⟨0, 0, 1, ⟨1, 1, 1⟩⟩⟩
        ⟨⟨0, 0, 1⟩, ⟨0, 0, -5⟩⟩ 0).2 = 4 ∧
    (4 : ℚ) < 1000000000 ∧
    ∀ q ∈ List.take 1 [⟨⟨0, 0, 0⟩, 1, ⟨0, 0, 1, ⟨1, 1, 1⟩⟩⟩],
      (PrimSphere.intersect q ⟨⟨0, 0, 1⟩, ⟨0, 0, -5⟩⟩ 0).1 ≠ 0 →
        (4 : ℚ) ≤ (PrimSphere.intersect q ⟨⟨0, 0, 1⟩, ⟨0, 0, -5⟩⟩ 0).2 := by
  refine ⟨C4_nearest_hit_and_background.1
      ⟨⟨0, 0, fun _ _ => ⟨0, 0, 0, 0⟩⟩, 0, [], 0, []⟩ ⟨⟨0, 0, 1⟩, ⟨0, 0, 0⟩⟩ 0 rfl,
    C4_nearest_hit_and_background.2.1
      ⟨⟨0, 0, fun _ _ => ⟨0, 0, 0, 0⟩⟩, 1, [⟨⟨0, 0, 0⟩, 1, ⟨0, 0, 1, ⟨1, 1, 1⟩⟩⟩], 0, []⟩
      ⟨⟨0, 0, 1⟩, ⟨0, 0, 7⟩⟩ 3 (by decide), ?_⟩
  exact C4_nearest_hit_and_background.2.2
    ⟨⟨0, 0, fun _ _ => ⟨0, 0, 0, 0⟩⟩, 1, [⟨⟨0, 0, 0⟩, 1, ⟨0, 0, 1, ⟨1, 1, 1⟩⟩⟩], 0, []⟩
    ⟨⟨0, 0, 1⟩, ⟨0, 0, -5⟩⟩ 0 4 ⟨⟨0, 0, 0⟩, 1, ⟨0, 0, 1, ⟨1, 1, 1⟩⟩⟩ (by decide)

/-! ### Render machinery lemmas -/

theorem trace_snd (g : GlobalSettings) (ray : Ray) (d : Nat) :
    (trace g ray d).2 = g := by
  rw [trace_eq_pure]

theorem renderPixel_eq (g : GlobalSettings) (x y : Nat) (sx sy : ℚ) :
    renderPixel g x y sx sy =
      { g with img := put_pixel g.img x y (colorToRgba (tracePF 5
          (g.primitive_list.take g.primitive_count)
          (g.light_list.take g.light_count) (mkCameraRay sx sy) 0)) } := by
  simp only [renderPixel, trace_eq_pure]

theorem renderCols_fields (dx : ℚ) (y : Nat) (sy : ℚ) :
    ∀ (xs : List Nat) (sx : ℚ) (g : GlobalSettings),
      (renderCols dx y sy xs sx g).primitive_count = g.primitive_count ∧
      (renderCols dx y sy xs sx g).primitive_list = g.primitive_list ∧
      (renderCols dx y sy xs sx g).light_count = g.light_count ∧
      (renderCols dx y sy xs sx g).light_list = g.light_list ∧
      (renderCols dx y sy xs sx g).img.width = g.img.width ∧
      (renderCols dx y sy xs sx g).img.height = g.img.height := by
  intro xs
  induction xs with
  | nil => intro sx g; exact ⟨rfl, rfl, rfl, rfl, rfl, rfl⟩
  | cons x rest ih =>
    intro sx g
    simp only [renderCols]
    rw [renderPixel_eq]
    obtain ⟨h1, h2, h3, h4, h5, h6⟩ := ih (sx + dx) _
    exact ⟨h1, h2, h3, h4, h5, h6⟩

theorem renderCols_data_other_row (dx : ℚ) (y : Nat) (sy : ℚ) :
    ∀ (xs : List Nat) (sx : ℚ) (g : GlobalSettings) (x' y' : Nat), y' ≠ y →
      (renderCols dx y sy xs sx g).img.data x' y' = g.img.data x' y' := by
  intro xs
  induction xs with
  | nil => intro sx g x' y' hy; rfl
  | cons x rest ih =>
    intro sx g x' y' hy
    simp only [renderCols]
    rw [ih (sx + dx) (renderPixel g x y sx sy) x' y' hy, renderPixel_eq]
    simp [put_pixel, hy]

theorem renderCols_data_row (dx : ℚ) (y : Nat) (sy : ℚ) :
    ∀ (n a : Nat) (g : GlobalSettings) (x' : Nat),
      (renderCols dx y sy (List.range' a n) (wx1 + dx * (a : ℚ)) g).img.data x' y =
        if a ≤ x' ∧ x' < a + n then
          colorToRgba (tracePF 5 (g.primitive_list.take g.primitive_count)
            (g.light_list.take g.light_count)
            (mkCameraRay (wx1 + dx * (x' : ℚ)) sy) 0)
        else g.img.data x' y := by
  intro n
  induction n with
  | zero =>
    intro a g x'
    rw [if_neg (by omega)]
    rfl
  | succ n ih =>
    intro a g x'
    rw [List.range'_succ]
    simp only [renderCols]
    rw [renderPixel_eq]
    have harg : wx1 + dx * (a : ℚ) + dx = wx1 + dx * ((a + 1 : Nat) : ℚ) := by
      push_cast; ring
    rw [harg, ih (a + 1) _ x']
    simp only [put_pixel]
    by_cases h1 : a + 1 ≤ x' ∧ x' < a + 1 + n
    · rw [if_pos h1, if_pos (show a ≤ x' ∧ x' < a + (n + 1) by omega)]
    · rw [if_neg h1]
      by_cases hx : x' = a
      · subst hx
        rw [if_pos (show x' ≤ x' ∧ x' < x' + (n + 1) by omega)]
        simp
      · rw [if_neg (show ¬(a ≤ x' ∧ x' < a + (n + 1)) by omega)]
        simp [hx]

theorem stepIndicesAux_fuel_irrel : ∀ (f₁ f₂ start stop : Nat),
    stop - start ≤ f₁ → stop - start ≤ f₂ →
    stepIndicesAux f₁ start stop = stepIndicesAux f₂ start stop := by
  intro f₁
  induction f₁ with
  | zero =>
    intro f₂ start stop h1 h2
    cases f₂ with
    | zero => rfl
    | succ m =>
      simp only [stepIndicesAux]
      rw [if_neg (by omega)]
  | succ n ih =>
    intro f₂ start stop h1 h2
    cases f₂ with
    | zero =>
      simp only [stepIndicesAux]
      rw [if_neg (by omega)]
    | succ m =>
      simp only [stepIndicesAux]
      by_cases hlt : start < stop
      · rw [if_pos hlt, if_pos hlt, ih m (start + 4) stop (by omega) (by omega)]
      · rw [if_neg hlt, if_neg hlt]

theorem stepIndices_eq (start stop : Nat) :
    stepIndices start stop =
      if start < stop then start :: stepIndices (start + 4) stop else [] := by
  unfold stepIndices
  cases stop with
  | zero =>
    rw [if_neg (by omega)]
    rfl
  | succ m =>
    simp only [stepIndicesAux]
    by_cases hlt : start < m + 1
    · rw [if_pos hlt, if_pos hlt]
      exact congrArg (List.cons start)
        (stepIndicesAux_fuel_irrel m (m + 1) (start + 4) (m + 1) (by omega) (by omega))
    · rw [if_neg hlt, if_neg hlt]

theorem mem_stepIndices_aux : ∀ (n start stop y : Nat), stop - start ≤ n →
    (y ∈ stepIndicesAux n start stop ↔
      start ≤ y ∧ y < stop ∧ (y - start) % 4 = 0) := by
  intro n
  induction n with
  | zero =>
    intro start stop y h
    simp only [stepIndicesAux, List.not_mem_nil, false_iff]
    omega
  | succ n ih =>
    intro start stop y h
    simp only [stepIndicesAux]
    by_cases hlt : start < stop
    · rw [if_pos hlt]
      simp only [List.mem_cons]
      rw [ih (start + 4) stop y (by omega)]
      constructor
      · rintro (rfl | ⟨h1, h2, h3⟩)
        · exact ⟨le_refl _, hlt, by simp⟩
        · exact ⟨by omega, h2, by omega⟩
      · rintro ⟨h1, h2, h3⟩
        by_cases hy : y = start
        · left; exact hy
        · right; exact ⟨by omega, h2, by omega⟩
    · rw [if_neg hlt]
      simp only [List.not_mem_nil, false_iff]
      omega

theorem mem_stepIndices (start stop y : Nat) :
    y ∈ stepIndices start stop ↔
      start ≤ y ∧ y < stop ∧ (y - start) % 4 = 0 :=
  mem_stepIndices_aux stop start stop y (by omega)

theorem renderCols_data_row0 (dx : ℚ) (y : Nat) (sy : ℚ) (w : Nat)
    (g : GlobalSettings) (x' : Nat) :
    (renderCols dx y sy (List.range w) wx1 g).img.data x' y =
      if x' < w then
        colorToRgba (tracePF 5 (g.primitive_list.take g.primitive_count)
          (g.light_list.take g.light_count)
          (mkCameraRay (wx1 + dx * (x' : ℚ)) sy) 0)
      else g.img.data x' y := by
  have h0 : (wx1 : ℚ) = wx1 + dx * ((0 : Nat) : ℚ) := by push_cast; ring
  conv_lhs => rw [List.range_eq_range', h0]
  rw [renderCols_data_row dx y sy w 0 g x']
  by_cases hx : x' < w
  · rw [if_pos (by omega), if_pos hx]
  · rw [if_neg (by omega), if_neg hx]

theorem renderRows_fields (dx dy : ℚ) : ∀ (ys : List Nat) (sy : ℚ) (g : GlobalSettings),
    (renderRows dx dy ys sy g).primitive_count = g.primitive_count ∧
    (renderRows dx dy ys sy g).primitive_list = g.primitive_list ∧
    (renderRows dx dy ys sy g).light_count = g.light_count ∧
    (renderRows dx dy ys sy g).light_list = g.light_list ∧
    (renderRows dx dy ys sy g).img.width = g.img.width ∧
    (renderRows dx dy ys sy g).img.height = g.img.height := by
  intro ys
  induction ys with
  | nil => intro sy g; exact ⟨rfl, rfl, rfl, rfl, rfl, rfl⟩
  | cons y rest ih =>
    intro sy g
    simp only [renderRows]
    obtain ⟨i1, i2, i3, i4, i5, i6⟩ :=
      ih (sy + dy * 4) (renderCols dx y sy (List.range g.img.width) wx1 g)
    obtain ⟨c1, c2, c3, c4, c5, c6⟩ :=
      renderCols_fields dx y sy (List.range g.img.width) wx1 g
    exact ⟨i1.trans c1, i2.trans c2, i3.trans c3, i4.trans c4,
      i5.trans c5, i6.trans c6⟩

theorem renderRows_data : ∀ (fn start stop : Nat) (dx dy : ℚ)
    (g : GlobalSettings) (x' y' : Nat), stop - start ≤ fn →
    (renderRows dx dy (stepIndices start stop) (wy1 + dy * (start : ℚ)) g).img.data x' y' =
      if (start ≤ y' ∧ y' < stop ∧ (y' - start) % 4 = 0) ∧ x' < g.img.width then
        colorToRgba (tracePF 5 (g.primitive_list.take g.primitive_count)
          (g.light_list.take g.light_count)
          (mkCameraRay (wx1 + dx * (x' : ℚ)) (wy1 + dy * (y' : ℚ))) 0)
      else g.img.data x' y' := by
  intro fn
  induction fn with
  | zero =>
    intro start stop dx dy g x' y' h
    rw [stepIndices_eq, if_neg (by omega), if_neg (by omega)]
    rfl
  | succ fn ih =>
    intro start stop dx dy g x' y' h
    by_cases hlt : start < stop
    · rw [stepIndices_eq, if_pos hlt]
      simp only [renderRows]
      have hsy : wy1 + dy * (start : ℚ) + dy * 4
          = wy1 + dy * ((start + 4 : Nat) : ℚ) := by push_cast; ring
      rw [hsy, ih (start + 4) stop dx dy _ x' y' (by omega)]
      obtain ⟨c1, c2, c3, c4, c5, c6⟩ :=
        renderCols_fields dx start (wy1 + dy * (start : ℚ)) (List.range g.img.width) wx1 g
      rw [c1, c2, c3, c4, c5]
      by_cases hy : y' = start
      · subst hy
        rw [if_neg (by omega), renderCols_data_row0]
        by_cases hx : x' < g.img.width
        · rw [if_pos hx, if_pos (by omega)]
        · rw [if_neg hx, if_neg (by omega)]
      · rw [renderCols_data_other_row dx start _ (List.range g.img.width) wx1 g x' y' hy]
        by_cases hc : (start ≤ y' ∧ y' < stop ∧ (y' - start) % 4 = 0) ∧ x' < g.img.width
        · rw [if_pos (by omega), if_pos hc]
        · rw [if_neg (by omega), if_neg hc]
    · rw [stepIndices_eq, if_neg hlt, if_neg (by omega)]
      rfl

theorem render_fields (w : Nat) (g : GlobalSettings) :
    (render w g).primitive_count = g.primitive_count ∧
    (render w g).primitive_list = g.primitive_list ∧
    (render w g).light_count = g.light_count ∧
    (render w g).light_list = g.light_list ∧
    (render w g).img.width = g.img.width ∧
    (render w g).img.height = g.img.height := by
  simp only [render]
  exact renderRows_fields _ _ _ _ _

theorem render_data (w : Nat) (g : GlobalSettings) (x' y' : Nat) :
    (render w g).img.data x' y' =
      if (w ≤ y' ∧ y' < g.img.height ∧ (y' - w) % 4 = 0) ∧ x' < g.img.width then
        pixelValue (g.primitive_list.take g.primitive_count)
          (g.light_list.take g.light_count) g.img.width g.img.height x' y'
      else g.img.data x' y' := by
  simp only [render]
  rw [renderRows_data g.img.height w g.img.height
    ((wx2 - wx1) / (g.img.width : ℚ)) ((wy2 - wy1) / (g.img.height : ℚ))
    g x' y' (by omega)]
  rfl

theorem render_commute (a b : Nat) (g : GlobalSettings) :
    render a (render b g) = render b (render a g) := by
  obtain ⟨a1, a2, a3, a4, a5, a6⟩ := render_fields a g
  obtain ⟨b1, b2, b3, b4, b5, b6⟩ := render_fields b g
  refine GlobalSettings.ext ?_ ?_ ?_ ?_ ?_
  · refine Image.ext ?_ ?_ ?_
    · rw [(render_fields a (render b g)).2.2.2.2.1, b5,
        (render_fields b (render a g)).2.2.2.2.1, a5]
    · rw [(render_fields a (render b g)).2.2.2.2.2, b6,
        (render_fields b (render a g)).2.2.2.2.2, a6]
    · funext x y
      rw [render_data a (render b g) x y, b1, b2, b3, b4, b5, b6,
        render_data b g x y,
        render_data b (render a g) x y, a1, a2, a3, a4, a5, a6,
        render_data a g x y]
      by_cases hA : (a ≤ y ∧ y < g.img.height ∧ (y - a) % 4 = 0) ∧ x < g.img.width <;>
        by_cases hB : (b ≤ y ∧ y < g.img.height ∧ (y - b) % 4 = 0) ∧ x < g.img.width <;>
        simp [hA, hB]
  · rw [(render_fields a (render b g)).1, b1, (render_fields b (render a g)).1, a1]
  · rw [(render_fields a (render b g)).2.1, b2, (render_fields b (render a g)).2.1, a2]
  · rw [(render_fields a (render b g)).2.2.1, b3, (render_fields b (render a g)).2.2.1, a3]
  · rw [(render_fields a (render b g)).2.2.2.1, b4,
      (render_fields b (render a g)).2.2.2.1, a4]

theorem applyRenders_perm : ∀ (l₁ l₂ : List Nat), l₁.Perm l₂ →
    ∀ (g : GlobalSettings), applyRenders l₁ g = applyRenders l₂ g := by
  intro l₁ l₂ hp
  induction hp with
  | nil => intro g; rfl
  | cons x hp ih =>
    intro g
    simp only [applyRenders, List.foldl_cons] at ih ⊢
    exact ih _
  | swap x y l =>
    intro g
    simp only [applyRenders, List.foldl_cons]
    rw [render_commute]
  | trans hp1 hp2 ih1 ih2 =>
    intro g
    rw [ih1 g, ih2 g]

theorem applyRenders_final_pixel (g : GlobalSettings) (x y : Nat)
    (hx : x < g.img.width) (hy : y < g.img.height) :
    (applyRenders [0, 1, 2, 3] g).img.data x y =
      pixelValue (g.primitive_list.take g.primitive_count)
        (g.light_list.take g.light_count) g.img.width g.img.height x y := by
  simp only [applyRenders, List.foldl_cons, List.foldl_nil]
  obtain ⟨a1, a2, a3, a4, a5, a6⟩ := render_fields 0 g
  obtain ⟨b1, b2, b3, b4, b5, b6⟩ := render_fields 1 (render 0 g)
  obtain ⟨c1, c2, c3, c4, c5, c6⟩ := render_fields 2 (render 1 (render 0 g))
  have pc : (render 2 (render 1 (render 0 g))).primitive_count = g.primitive_count := by
    rw [c1, b1, a1]
  have pl : (render 2 (render 1 (render 0 g))).primitive_list = g.primitive_list := by
    rw [c2, b2, a2]
  have lc : (render 2 (render 1 (render 0 g))).light_count = g.light_count := by
    rw [c3, b3, a3]
  have ll : (render 2 (render 1 (render 0 g))).light_list = g.light_list := by
    rw [c4, b4, a4]
  have ww : (render 2 (render 1 (render 0 g))).img.width = g.img.width := by
    rw [c5, b5, a5]
  have hh : (render 2 (render 1 (render 0 g))).img.height = g.img.height := by
    rw [c6, b6, a6]
  have pc1 : (render 1 (render 0 g)).primitive_count = g.primitive_count := by rw [b1, a1]
  have pl1 : (render 1 (render 0 g)).primitive_list = g.primitive_list := by rw [b2, a2]
  have lc1 : (render 1 (render 0 g)).light_count = g.light_count := by rw [b3, a3]
  have ll1 : (render 1 (render 0 g)).light_list = g.light_list := by rw [b4, a4]
  have ww1 : (render 1 (render 0 g)).img.width = g.img.width := by rw [b5, a5]
  have hh1 : (render 1 (render 0 g)).img.height = g.img.height := by rw [b6, a6]
  rw [render_data 3, pc, pl, lc, ll, ww, hh]
  by_cases h3 : 3 ≤ y ∧ (y - 3) % 4 = 0
  · rw [if_pos ⟨⟨h3.1, hy, h3.2⟩, hx⟩]
  · rw [if_neg (fun hc => h3 ⟨hc.1.1, hc.1.2.2⟩)]
    rw [render_data 2, pc1, pl1, lc1, ll1, ww1, hh1]
    by_cases h2 : 2 ≤ y ∧ (y - 2) % 4 = 0
    · rw [if_pos ⟨⟨h2.1, hy, h2.2⟩, hx⟩]
    · rw [if_neg (fun hc => h2 ⟨hc.1.1, hc.1.2.2⟩)]
      rw [render_data 1, a1, a2, a3, a4, a5, a6]
      by_cases h1 : 1 ≤ y ∧ (y - 1) % 4 = 0
      · rw [if_pos ⟨⟨h1.1, hy, h1.2⟩, hx⟩]
      · rw [if_neg (fun hc => h1 ⟨hc.1.1, hc.1.2.2⟩)]
        rw [render_data 0]
        rw [if_pos ⟨⟨by omega, hy, by omega⟩, hx⟩]

/-! ### Claim C6 -/

/-- Claim C6 (confirmed): with worker count 4, `render w` writes pixels only
in the rows `{w, w+4, w+8, ...}` below the image height (first conjunct:
every pixel outside those rows is left untouched); every row `y < height` is
owned by exactly the worker `y % 4` among the four workers (second conjunct);
and the row stripes of distinct workers among 0..3 are disjoint (third
conjunct) — so across the four render calls each in-bounds pixel is written
by exactly one worker. -/
theorem C6_stripe_partition :
    (∀ (w : Nat) (g : GlobalSettings) (x y : Nat),
      y ∉ stepIndices w g.img.height →
      (render w g).img.data x y = g.img.data x y) ∧
    (∀ (h y : Nat), y < h →
      y ∈ stepIndices (y % 4) h ∧
      ∀ w, w < 4 → y ∈ stepIndices w h → w = y % 4) ∧
    (∀ (w₁ w₂ h : Nat), w₁ < 4 → w₂ < 4 → w₁ ≠ w₂ →
      ∀ y, y ∈ stepIndices w₁ h → y ∉ stepIndices w₂ h) := by
  refine ⟨?_, ?_, ?_⟩
  · intro w g x y hmem
    rw [mem_stepIndices] at hmem
    rw [render_data, if_neg (fun hc => hmem ⟨hc.1.1, hc.1.2.1, hc.1.2.2⟩)]
  · intro h y hy
    refine ⟨(mem_stepIndices _ _ _).mpr ⟨by omega, hy, by omega⟩, ?_⟩
    intro w hw hmem
    rw [mem_stepIndices] at hmem
    omega
  · intro w₁ w₂ h h1 h2 hne y hm1 hm2
    rw [mem_stepIndices] at hm1 hm2
    omega

/-- Witness for `C6_stripe_partition` on concrete rows and workers. -/
theorem C6_witness :
    ((render 1 ⟨⟨1, 1, fun _ _ => ⟨0, 0, 0, 0⟩⟩, 0, [], 0, []⟩).img.data 0 0 =
      (⟨⟨1, 1, fun _ _ => ⟨0, 0, 0, 0⟩⟩, 0, [], 0, []⟩ : GlobalSettings).img.data 0 0) ∧
    (6 ∈ stepIndices (6 % 4) 9 ∧ ∀ w, w < 4 → 6 ∈ stepIndices w 9 → w = 6 % 4) ∧
    (∀ y, y ∈ stepIndices 0 5 → y ∉ stepIndices 1 5) :=
  ⟨C6_stripe_partition.1 1 ⟨⟨1, 1, fun _ _ => ⟨0, 0, 0, 0⟩⟩, 0, [], 0, []⟩ 0 0 (by decide),
   C6_stripe_partition.2.1 9 6 (by decide),
   C6_stripe_partition.2.2 0 1 5 (by decide) (by decide) (by decide)⟩

/-! ### Claim C7 -/

/-- Claim C7 (confirmed): rendering is deterministic.  First conjunct:
executing the four render calls (thread ids 0..3) in ANY order produces
exactly the same final state as the order 0,1,2,3.  Second conjunct: the
final value of every in-bounds pixel is a function of the scene and the image
dimensions only — two complete renders over equal scenes and equal
dimensions produce pixel-identical framebuffers, regardless of the initial
framebuffer contents. -/
theorem C7_determinism :
    (∀ (l : List Nat) (g : GlobalSettings), l.Perm [0, 1, 2, 3] →
      applyRenders l g = applyRenders [0, 1, 2, 3] g) ∧
    (∀ (g g' : GlobalSettings),
      g.primitive_count = g'.primitive_count →
      g.primitive_list = g'.primitive_list →
      g.light_count = g'.light_count →
      g.light_list = g'.light_list →
      g.img.width = g'.img.width →
      g.img.height = g'.img.height →
      ∀ x y, x < g.img.width → y < g.img.height →
        (applyRenders [0, 1, 2, 3] g).img.data x y =
          (applyRenders [0, 1, 2, 3] g').img.data x y) := by
  constructor
  · intro l g hp
    exact applyRenders_perm l [0, 1, 2, 3] hp g
  · intro g g' e1 e2 e3 e4 e5 e6 x y hx hy
    rw [applyRenders_final_pixel g x y hx hy,
      applyRenders_final_pixel g' x y (e5 ▸ hx) (e6 ▸ hy), e1, e2, e3, e4, e5, e6]

/-- Witness for `C7_determinism`: a permuted execution order on a concrete
1×1 scene, and the pixel-determinism conjunct at concrete coordinates. -/
theorem C7_witness :
    applyRenders [1, 0, 2, 3] ⟨⟨1, 1, fun _ _ => ⟨0, 0, 0, 0⟩⟩, 0, [], 0, []⟩ =
      applyRenders [0, 1, 2, 3] ⟨⟨1, 1, fun _ _ => ⟨0, 0, 0, 0⟩⟩, 0, [], 0, []⟩ ∧
    (applyRenders [0, 1, 2, 3] ⟨⟨1, 1, fun _ _ => ⟨0, 0, 0, 0⟩⟩, 0, [], 0, []⟩).img.data 0 0 =
      (applyRenders [0, 1, 2, 3] ⟨⟨1, 1, fun _ _ => ⟨0, 0, 0, 0⟩⟩, 0, [], 0, []⟩).img.data 0 0 :=
  ⟨C7_determinism.1 [1, 0, 2, 3] ⟨⟨1, 1, fun _ _ => ⟨0, 0, 0, 0⟩⟩, 0, [], 0, []⟩
      (List.Perm.swap 0 1 [2, 3]),
   C7_determinism.2 ⟨⟨1, 1, fun _ _ => ⟨0, 0, 0, 0⟩⟩, 0, [], 0, []⟩
      ⟨⟨1, 1, fun _ _ => ⟨0, 0, 0, 0⟩⟩, 0, [], 0, []⟩
      rfl rfl rfl rfl rfl rfl 0 0 (by decide) (by decide)⟩

/-! ### Claim C10 -/

/-- Claim C10 (confirmed): the scene is read-only throughout rendering.
First conjunct: `trace` returns the whole global state (sphere list, light
list, both counts, and the framebuffer) unchanged, for every input.  Second
conjunct: `render` leaves the sphere list, light list and both counts
unchanged — it modifies only the framebuffer field. -/
theorem C10_read_only :
    (∀ (g : GlobalSettings) (ray : Ray) (d : Nat), (trace g ray d).2 = g) ∧
    (∀ (w : Nat) (g : GlobalSettings),
      (render w g).primitive_count = g.primitive_count ∧
      (render w g).primitive_list = g.primitive_list ∧
      (render w g).light_count = g.light_count ∧
      (render w g).light_list = g.light_list) :=
  ⟨trace_snd, fun w g =>
    ⟨(render_fields w g).1, (render_fields w g).2.1,
     (render_fields w g).2.2.1, (render_fields w g).2.2.2.1⟩⟩

end Lux
